import Mathlib

/-!
Verification development for the configuration subsystem of the polaris
media server (`src/config.rs`). The Rust source is shallowly embedded:

* the TOML value tree (the `toml` crate's `Value` / `Table`, version 0.2
  with `Value::lookup` and `as_str`) is modelled by the inductive `Value`
  and assoc-list tables;
* `&mut self` field parsers become explicit state passing
  `Config → Table → Except ConfigError Config`;
* `PathBuf` is modelled at components level as `List String` (Rust
  `Path` equality compares components, which drops empty components
  produced by trailing or doubled separators);
* external collaborators are parameters: the syntactic TOML parse result
  is an `Option Table` (`toml::Parser::parse` returns an `Option`), the
  regex engine's acceptance of a pattern is `regexOk : String → Bool`,
  and `utils::get_cache_root` (defined outside `config.rs`) is an
  `Option (List String)` argument;
* `IndexConfig::new()` lives in `index.rs`, which is not part of the
  available source; per the spec it only provides a built-in default
  reindex interval and an optional album-art pattern, so the initial
  `IndexConfig` is a parameter of `Config.parse`.

Payloads irrelevant to parsing decisions are dropped where unavoidable:
`Value.float` drops the `f64` payload (floating point; it is only ever
matched by catch-all `_` arms), and the error variants `IoError` /
`RegexError` drop their wrapped external error values.
-/

namespace Polaris

/-- `ConfigError` from `src/config.rs` lines 30-44.  `IoError` and
`RegexError` wrap external error values in the source; the payloads are
dropped here since no parsing decision inspects them. -/
inductive ConfigError where
  | IoError : ConfigError
  | CacheDirectoryError : ConfigError
  | ConfigDirectoryError : ConfigError
  | TOMLParseError : ConfigError
  | RegexError : ConfigError
  | SecretParseError : ConfigError
  | SleepDurationParseError : ConfigError
  | AlbumArtPatternParseError : ConfigError
  | UsersParseError : ConfigError
  | MountDirsParseError : ConfigError
  | DDNSParseError : ConfigError
  | ConflictingMounts : ConfigError
  deriving DecidableEq, Repr

/-- Modelled from the spec: `User` is defined in `collection.rs`, not in
the available source; the spec describes it as a value object holding
`name` and `password` strings. -/
structure User where
  name : String
  password : String
  deriving DecidableEq, Repr

/-- Modelled from the spec: `User::new(name, password)` stores both
strings unchanged. -/
def User.new (name : String) (password : String) : User :=
  { name := name, password := password }

/-- Modelled from the spec: `DDNSConfig` (from `ddns.rs`) holds `host`,
`username`, `password`; `config.rs` constructs it from three strings. -/
structure DDNSConfig where
  host : String
  username : String
  password : String
  deriving DecidableEq, Repr

/-- A `PathBuf` at components level: the list of non-empty components. -/
abbrev RPath := List String

/-- Modelled from the spec: `VfsConfig` (from `vfs.rs`) holds
`mount_points`, a map from mount name to source path.  The `HashMap` is
modelled as an association list; `config.rs` only inserts keys that are
not yet present, so keys stay distinct. -/
structure VfsConfig where
  mount_points : List (String × RPath)
  deriving DecidableEq, Repr

/-- Modelled from the spec: `VfsConfig::new()` starts with no mounts
("built incrementally; starts empty"). -/
def VfsConfig.new : VfsConfig := { mount_points := [] }

/-- Modelled from the spec: `IndexConfig` (from `index.rs`) holds the
index storage path, the reindex interval in seconds (`u64`, with a
built-in default) and an optional album-art pattern.  The compiled
regex is represented by its source string. -/
structure IndexConfig where
  path : RPath
  sleep_duration : Nat
  album_art_pattern : Option String
  deriving DecidableEq, Repr

/-- `Config` from `src/config.rs` lines 58-64. -/
structure Config where
  secret : String
  vfs : VfsConfig
  users : List User
  index : IndexConfig
  ddns : Option DDNSConfig
  deriving DecidableEq, Repr

/-- The `toml` crate's `Value` (version 0.2).  `float` drops its `f64`
payload: the source only ever hits it through catch-all `_` match arms,
so the payload never influences behaviour. -/
inductive Value where
  | str : String → Value
  | int : Int → Value
  | float : Value
  | boolean : Bool → Value
  | datetime : String → Value
  | array : List Value → Value
  | table : List (String × Value) → Value

/-- The `toml` crate's `Table`, modelled as an association list (the
crate uses a `BTreeMap`, whose keys are distinct; lookup takes the first
match). -/
abbrev Table := List (String × Value)

/-- `BTreeMap::get`: first entry with the given key. -/
def tableGet (t : Table) (k : String) : Option Value :=
  match t with
  | [] => none
  | (k2, v) :: rest => if k2 = k then some v else tableGet rest k

/-- The `toml` crate's `Value::lookup` for a dot-free, non-numeric key
(the only way `config.rs` calls it): a table lookup when the value is a
table, `None` otherwise. -/
def Value.lookup (v : Value) (k : String) : Option Value :=
  match v with
  | .table t => tableGet t k
  | _ => none

/-- The `toml` crate's `Value::as_str`. -/
def Value.as_str (v : Value) : Option String :=
  match v with
  | .str s => some s
  | _ => none

def DEFAULT_CONFIG_FILE_NAME : String := "polaris.toml"

def INDEX_FILE_NAME : String := "index.sqlite"

def CONFIG_SECRET : String := "auth_secret"

def CONFIG_MOUNT_DIRS : String := "mount_dirs"

def CONFIG_MOUNT_DIR_NAME : String := "name"

def CONFIG_MOUNT_DIR_SOURCE : String := "source"

def CONFIG_USERS : String := "users"

def CONFIG_USER_NAME : String := "name"

def CONFIG_USER_PASSWORD : String := "password"

def CONFIG_ALBUM_ART_PATTERN : String := "album_art_pattern"

def CONFIG_INDEX_SLEEP_DURATION : String := "reindex_every_n_seconds"

def CONFIG_DDNS : String := "ydns"

def CONFIG_DDNS_HOST : String := "host"

def CONFIG_DDNS_USERNAME : String := "username"

def CONFIG_DDNS_PASSWORD : String := "password"

/-- A path separator as matched by the regex `\\|/` in
`clean_path_string`. -/
def isSep (c : Char) : Bool := c = '/' || c = '\\'

/-- `Regex::split` on the separator regex, over the character list:
every separator character ends the current (possibly empty) piece. -/
def splitSepList : List Char → List (List Char)
  | [] => [[]]
  | c :: cs =>
    if isSep c then [] :: splitSepList cs
    else
      match splitSepList cs with
      | [] => [[c]]
      | p :: ps => (c :: p) :: ps

/-- `PathBuf::push` of a separator-free component, at components level:
pushing the empty string leaves the components unchanged (Rust appends
only a separator, which `Path` equality normalizes away). -/
def pathPush (p : RPath) (component : String) : RPath :=
  if component = "" then p else p ++ [component]

/-- `clean_path_string` from `src/config.rs` lines 252-260: split the
input on `/` and `\`, then push each piece onto a fresh `PathBuf`. -/
def clean_path_string (path_string : String) : RPath :=
  ((splitSepList path_string.data).map (fun l => String.mk l)).foldl pathPush []

/-- Lookup of a mount by name in the `mount_points` map. -/
def mountLookup (m : List (String × RPath)) (k : String) : Option RPath :=
  match m with
  | [] => none
  | (k2, v) :: rest => if k2 = k then some v else mountLookup rest k

/-- `HashMap::contains_key` on the modelled `mount_points`. -/
def containsKey (m : List (String × RPath)) (k : String) : Bool :=
  match m with
  | [] => false
  | (k2, _) :: rest => k2 = k || containsKey rest k

/-- `Config::parse_secret`, `src/config.rs` lines 113-118. -/
def Config.parse_secret (c : Config) (source : Table) : Except ConfigError Config :=
  match tableGet source CONFIG_SECRET with
  | none => .error .SecretParseError
  | some secret =>
    match secret.as_str with
    | none => .error .SecretParseError
    | some secret => .ok { c with secret := secret }

/-- `Config::parse_index_sleep_duration`, `src/config.rs` lines
120-131.  `s as u64` on an `i64` is the value modulo `2 ^ 64`. -/
def Config.parse_index_sleep_duration (c : Config) (source : Table) :
    Except ConfigError Config :=
  match tableGet source CONFIG_INDEX_SLEEP_DURATION with
  | none => .ok c
  | some sleep_duration =>
    match sleep_duration with
    | .int s =>
      .ok { c with index := { c.index with sleep_duration := (s % (2 : Int) ^ 64).toNat } }
    | _ => .error .SleepDurationParseError

/-- `Config::parse_album_art_pattern`, `src/config.rs` lines 133-144.
`regexOk` models the external pattern engine: `Regex::new` succeeds
exactly when `regexOk pattern = true`; its failure is wrapped as
`RegexError`. -/
def Config.parse_album_art_pattern (c : Config) (regexOk : String → Bool)
    (source : Table) : Except ConfigError Config :=
  match tableGet source CONFIG_ALBUM_ART_PATTERN with
  | none => .ok c
  | some pattern =>
    match pattern with
    | .str s =>
      if regexOk s then
        .ok { c with index := { c.index with album_art_pattern := some s } }
      else .error .RegexError
    | _ => .error .AlbumArtPatternParseError

/-- The loop body of `Config::parse_users` (`src/config.rs` lines
157-178), processing the records in document order. -/
def parseUsersList (c : Config) : List Value → Except ConfigError Config
  | [] => .ok c
  | user :: rest =>
    match user.lookup CONFIG_USER_NAME with
    | none => .error .UsersParseError
    | some name =>
      match name.as_str with
      | none => .error .UsersParseError
      | some name =>
        match user.lookup CONFIG_USER_PASSWORD with
        | none => .error .UsersParseError
        | some password =>
          match password.as_str with
          | none => .error .UsersParseError
          | some password =>
            parseUsersList { c with users := c.users ++ [User.new name password] } rest

/-- `Config::parse_users`, `src/config.rs` lines 146-181. -/
def Config.parse_users (c : Config) (source : Table) : Except ConfigError Config :=
  match tableGet source CONFIG_USERS with
  | none => .ok c
  | some users =>
    match users with
    | .array a => parseUsersList c a
    | _ => .error .UsersParseError

/-- The loop body of `Config::parse_mount_points` (`src/config.rs`
lines 194-218): check each record, normalize its source, reject a name
already present, otherwise insert. -/
def parseMountDirsList (c : Config) : List Value → Except ConfigError Config
  | [] => .ok c
  | dir :: rest =>
    match dir.lookup CONFIG_MOUNT_DIR_NAME with
    | none => .error .MountDirsParseError
    | some name =>
      match name.as_str with
      | none => .error .MountDirsParseError
      | some name =>
        match dir.lookup CONFIG_MOUNT_DIR_SOURCE with
        | none => .error .MountDirsParseError
        | some src =>
          match src.as_str with
          | none => .error .MountDirsParseError
          | some src =>
            let src := clean_path_string src
            if containsKey c.vfs.mount_points name then .error .ConflictingMounts
            else
              parseMountDirsList
                { c with vfs := { mount_points := c.vfs.mount_points ++ [(name, src)] } } rest

/-- `Config::parse_mount_points`, `src/config.rs` lines 183-221. -/
def Config.parse_mount_points (c : Config) (source : Table) : Except ConfigError Config :=
  match tableGet source CONFIG_MOUNT_DIRS with
  | none => .ok c
  | some mount_dirs =>
    match mount_dirs with
    | .array a => parseMountDirsList c a
    | _ => .error .MountDirsParseError

/-- `Config::parse_ddns`, `src/config.rs` lines 223-249.  The source
first resolves presence of all three keys (`host`, then `username`,
then `password`), then checks that each is a string; every failure is
`DDNSParseError`. -/
def Config.parse_ddns (c : Config) (source : Table) : Except ConfigError Config :=
  match tableGet source CONFIG_DDNS with
  | none => .ok c
  | some ddns =>
    match ddns with
    | .table t =>
      match tableGet t CONFIG_DDNS_HOST with
      | none => .error .DDNSParseError
      | some hostv =>
        match tableGet t CONFIG_DDNS_USERNAME with
        | none => .error .DDNSParseError
        | some usernamev =>
          match tableGet t CONFIG_DDNS_PASSWORD with
          | none => .error .DDNSParseError
          | some passwordv =>
            match hostv.as_str with
            | none => .error .DDNSParseError
            | some host =>
              match usernamev.as_str with
              | none => .error .DDNSParseError
              | some username =>
                match passwordv.as_str with
                | none => .error .DDNSParseError
                | some password =>
                  .ok { c with
                    ddns := some { host := host, username := username, password := password } }
    | _ => .error .DDNSParseError

/-- The initial `Config` built at `src/config.rs` lines 88-94, with
`IndexConfig::new()` (not in the available source) as a parameter. -/
def Config.init (indexInit : IndexConfig) : Config :=
  { secret := ""
    vfs := VfsConfig.new
    users := []
    index := indexInit
    ddns := none }

/-- `Config::parse`, `src/config.rs` lines 85-110, starting from the
output of the external syntactic TOML parser (`parsed : Option Table`;
`None` models a syntactic parse failure).  The field parsers run in the
source's order, each `match` mirroring a `try!`; afterwards the cache
root (`utils::get_cache_root`, external to `config.rs`, modelled as
`Option RPath`) is resolved and `index.sqlite` appended. -/
def Config.parse (indexInit : IndexConfig) (regexOk : String → Bool)
    (parsed : Option Table) (cacheRoot : Option RPath) : Except ConfigError Config :=
  match parsed with
  | none => .error .TOMLParseError
  | some parsed_config =>
    match (Config.init indexInit).parse_secret parsed_config with
    | .error e => .error e
    | .ok config =>
      match config.parse_index_sleep_duration parsed_config with
      | .error e => .error e
      | .ok config =>
        match config.parse_mount_points parsed_config with
        | .error e => .error e
        | .ok config =>
          match config.parse_users parsed_config with
          | .error e => .error e
          | .ok config =>
            match config.parse_album_art_pattern regexOk parsed_config with
            | .error e => .error e
            | .ok config =>
              match config.parse_ddns parsed_config with
              | .error e => .error e
              | .ok config =>
                match cacheRoot with
                | none => .error .CacheDirectoryError
                | some index_path =>
                  .ok { config with
                    index := { config.index with path := index_path ++ [INDEX_FILE_NAME] } }

/-- The claim-side transformation "replace every backslash by a forward
slash". -/
def backslashToSlash (s : String) : String :=
  String.mk (s.data.map (fun c => if c = '\\' then '/' else c))

/-- The claim-side transformation "replace every forward slash by a
backslash". -/
def slashToBackslash (s : String) : String :=
  String.mk (s.data.map (fun c => if c = '/' then '\\' else c))

/-- A mount record with string `name` and string `source` sub-fields. -/
def wellTypedMountDir (v : Value) : Prop :=
  (∃ s, v.lookup CONFIG_MOUNT_DIR_NAME = some (.str s)) ∧
  (∃ s, v.lookup CONFIG_MOUNT_DIR_SOURCE = some (.str s))

/-- The `name` string of a mount record (defaults to `""` when the
record is not well typed). -/
def mountNameOf (v : Value) : String :=
  match v.lookup CONFIG_MOUNT_DIR_NAME with
  | some (.str s) => s
  | _ => ""

/-- The `source` string of a mount record (defaults to `""` when the
record is not well typed). -/
def mountSourceOf (v : Value) : String :=
  match v.lookup CONFIG_MOUNT_DIR_SOURCE with
  | some (.str s) => s
  | _ => ""

/-- A user record with string `name` and string `password`
sub-fields. -/
def wellTypedUserRecord (v : Value) : Prop :=
  (∃ s, v.lookup CONFIG_USER_NAME = some (.str s)) ∧
  (∃ s, v.lookup CONFIG_USER_PASSWORD = some (.str s))

/-- The `name` string of a user record (defaults to `""` when the
record is not well typed). -/
def userNameOf (v : Value) : String :=
  match v.lookup CONFIG_USER_NAME with
  | some (.str s) => s
  | _ => ""

/-- The `password` string of a user record (defaults to `""` when the
record is not well typed). -/
def userPasswordOf (v : Value) : String :=
  match v.lookup CONFIG_USER_PASSWORD with
  | some (.str s) => s
  | _ => ""

/-- A `ydns` table with `host`, `username`, `password` all present and
string-typed. -/
def ddnsWellTyped (t : Table) : Prop :=
  (∃ s, tableGet t CONFIG_DDNS_HOST = some (.str s)) ∧
  (∃ s, tableGet t CONFIG_DDNS_USERNAME = some (.str s)) ∧
  (∃ s, tableGet t CONFIG_DDNS_PASSWORD = some (.str s))

/-- A concrete `IndexConfig::new()` stand-in for closed witness
statements (the theorems themselves quantify over the initial
`IndexConfig`). -/
def sampleIndexConfig : IndexConfig :=
  { path := [], sleep_duration := 1800, album_art_pattern := none }

/-- A concrete mount record named `music`. -/
def mountMusic : Value :=
  .table [("name", .str "music"), ("source", .str "C:/some/path")]

/-- A concrete mount record named `video`. -/
def mountVideo : Value :=
  .table [("name", .str "video"), ("source", .str "D:/videos")]

/-- A concrete document whose mount records have distinct names. -/
def docMountsOk : Table := [(CONFIG_MOUNT_DIRS, .array [mountMusic, mountVideo])]

/-- A concrete document with two mount records both named `music`. -/
def docMountsDup : Table := [(CONFIG_MOUNT_DIRS, .array [mountMusic, mountMusic])]

/-- A concrete user record missing the `password` sub-field. -/
def userNoPassword : Value := .table [("name", .str "alice")]

/-- A concrete document whose `users` section has a record with no
`password`. -/
def docUsersBad : Table := [(CONFIG_USERS, .array [userNoPassword])]

/-- A concrete user record whose `name` and `password` are both the
empty string. -/
def userEmpty : Value := .table [("name", .str ""), ("password", .str "")]

/-- A concrete, otherwise valid document whose single user has empty
`name` and `password`. -/
def docEmptyUser : Table :=
  [(CONFIG_SECRET, .str "x"), (CONFIG_USERS, .array [userEmpty])]

/-- A concrete document whose `[ydns]` section misses the `password`
sub-field. -/
def docDdnsNoPassword : Table :=
  [(CONFIG_DDNS, .table [("host", .str "h"), ("username", .str "u")])]

/-- A concrete document in which both the reindex interval and the
`users` section are invalid (the interval is a string, the `users`
value is not an array). -/
def docMultiBad : Table :=
  [(CONFIG_SECRET, .str "x"),
   (CONFIG_INDEX_SLEEP_DURATION, .str "often"),
   (CONFIG_USERS, .float)]

/-- A concrete document whose reindex interval is the integer `-1`. -/
def docSleepNeg : Table :=
  [(CONFIG_INDEX_SLEEP_DURATION, .int (-1))]

/- ------------------------------------------------------------------ -/
/- Theorems                                                            -/
/- ------------------------------------------------------------------ -/

theorem splitSepList_map_of_sep_preserving (f : Char → Char)
    (h1 : ∀ c, isSep (f c) = isSep c) (h2 : ∀ c, isSep c = false → f c = c) :
    ∀ l : List Char, splitSepList (l.map f) = splitSepList l := by
  intro l
  induction l with
  | nil => rfl
  | cons c cs ih =>
    simp only [List.map, splitSepList, h1 c]
    cases hsep : isSep c with
    | true => simp [hsep, ih]
    | false => simp [hsep, ih, h2 c hsep]

theorem clean_path_string_map_eq (f : Char → Char)
    (h1 : ∀ c, isSep (f c) = isSep c) (h2 : ∀ c, isSep c = false → f c = c)
    (s : String) :
    clean_path_string (String.mk (s.data.map f)) = clean_path_string s := by
  unfold clean_path_string
  rw [show (String.mk (s.data.map f)).data = s.data.map f from rfl,
    splitSepList_map_of_sep_preserving f h1 h2]

/-- C4: path normalization is separator-invariant: replacing every
backslash by a forward slash (or every forward slash by a backslash)
does not change the normalized path, and the three concrete inputs
`"C:/some/path"`, `"C:\some\path"`, `"C:\some\path\"` all normalize to
`["C:", "some", "path"]`. -/
theorem C4_path_normalization_separator_invariant :
    (∀ s : String,
      clean_path_string (backslashToSlash s) = clean_path_string s ∧
      clean_path_string (slashToBackslash s) = clean_path_string s) ∧
    clean_path_string "C:/some/path" = ["C:", "some", "path"] ∧
    clean_path_string "C:\\some\\path" = ["C:", "some", "path"] ∧
    clean_path_string "C:\\some\\path\\" = ["C:", "some", "path"] := by
  refine ⟨fun s => ⟨?_, ?_⟩, by decide, by decide, by decide⟩
  · refine clean_path_string_map_eq _ ?_ ?_ s
    · intro c
      by_cases hc : c = '\\'
      · subst hc; decide
      · simp [hc]
    · intro c hc
      simp only [isSep, Bool.or_eq_false_iff, decide_eq_false_iff_not] at hc
      simp [hc.2]
  · refine clean_path_string_map_eq _ ?_ ?_ s
    · intro c
      by_cases hc : c = '/'
      · subst hc; decide
      · simp [hc]
    · intro c hc
      simp only [isSep, Bool.or_eq_false_iff, decide_eq_false_iff_not] at hc
      simp [hc.1]

theorem containsKey_eq_false_iff (m : List (String × RPath)) (k : String) :
    containsKey m k = false ↔ k ∉ m.map Prod.fst := by
  induction m with
  | nil => simp [containsKey]
  | cons p rest ih =>
    obtain ⟨k0, v0⟩ := p
    constructor
    · intro h
      simp only [containsKey, Bool.or_eq_false_iff, decide_eq_false_iff_not] at h
      simp only [List.map_cons, List.mem_cons, not_or]
      exact ⟨fun he => h.1 he.symm, ih.mp h.2⟩
    · intro h
      simp only [List.map_cons, List.mem_cons, not_or] at h
      simp only [containsKey, Bool.or_eq_false_iff, decide_eq_false_iff_not]
      exact ⟨fun he => h.1 he.symm, ih.mpr h.2⟩

theorem mountLookup_mem_of_nodup (m : List (String × RPath))
    (hnd : (m.map Prod.fst).Nodup) (k : String) (v : RPath)
    (hmem : (k, v) ∈ m) : mountLookup m k = some v := by
  induction m with
  | nil => simp at hmem
  | cons p rest ih =>
    obtain ⟨k0, v0⟩ := p
    simp only [List.map_cons, List.nodup_cons] at hnd
    rcases List.mem_cons.mp hmem with h | h
    · injection h with h1 h2
      subst h1
      subst h2
      simp [mountLookup]
    · by_cases hk : k0 = k
      · exfalso
        apply hnd.1
        subst hk
        exact List.mem_map.mpr ⟨(k0, v), h, rfl⟩
      · simp only [mountLookup, if_neg hk]
        exact ih hnd.2 h

theorem parseMountDirsList_ok (l : List Value) :
    ∀ c : Config, (∀ d ∈ l, wellTypedMountDir d) →
    (c.vfs.mount_points.map Prod.fst ++ l.map mountNameOf).Nodup →
    parseMountDirsList c l =
      .ok { c with vfs :=
        { mount_points :=
            c.vfs.mount_points ++
              l.map (fun d => (mountNameOf d, clean_path_string (mountSourceOf d))) } } := by
  induction l with
  | nil =>
    intro c _ _
    simp [parseMountDirsList]
  | cons d rest ih =>
    intro c hwt hnd
    obtain ⟨⟨n, hn⟩, ⟨s, hs⟩⟩ := hwt d (List.mem_cons_self d rest)
    have hnm : mountNameOf d = n := by simp [mountNameOf, hn]
    have hsm : mountSourceOf d = s := by simp [mountSourceOf, hs]
    simp only [List.map_cons, hnm] at hnd
    have hnotmem : n ∉ c.vfs.mount_points.map Prod.fst := by
      have hd := (List.nodup_append.mp hnd).2.2
      intro hin
      exact hd hin (List.mem_cons_self n _)
    simp only [parseMountDirsList, hn, hs, Value.as_str,
      (containsKey_eq_false_iff _ _).mpr hnotmem]
    rw [ih _ (fun x hx => hwt x (List.mem_cons_of_mem d hx))]
    · simp [hnm, hsm, List.append_assoc]
    · simp only [List.map_append, List.map_cons, List.map_nil]
      rw [List.append_assoc]
      simpa using hnd

theorem parseMountDirsList_conflict (l : List Value) :
    ∀ c : Config, (∀ d ∈ l, wellTypedMountDir d) →
    (c.vfs.mount_points.map Prod.fst).Nodup →
    ¬ (c.vfs.mount_points.map Prod.fst ++ l.map mountNameOf).Nodup →
    parseMountDirsList c l = .error .ConflictingMounts := by
  induction l with
  | nil =>
    intro c _ hk hdup
    exact absurd (by simpa using hk) hdup
  | cons d rest ih =>
    intro c hwt hk hdup
    obtain ⟨⟨n, hn⟩, ⟨s, hs⟩⟩ := hwt d (List.mem_cons_self d rest)
    have hnm : mountNameOf d = n := by simp [mountNameOf, hn]
    simp only [List.map_cons, hnm] at hdup
    by_cases hmem : n ∈ c.vfs.mount_points.map Prod.fst
    · have hc : containsKey c.vfs.mount_points n = true := by
        cases hcontains : containsKey c.vfs.mount_points n with
        | true => rfl
        | false => exact absurd hmem ((containsKey_eq_false_iff _ _).mp hcontains)
      simp [parseMountDirsList, hn, hs, Value.as_str, hc]
    · have hnotc := (containsKey_eq_false_iff _ _).mpr hmem
      simp only [parseMountDirsList, hn, hs, Value.as_str, hnotc]
      apply ih _ (fun x hx => hwt x (List.mem_cons_of_mem d hx))
      · simp only [List.map_append, List.map_cons, List.map_nil]
        refine List.nodup_append.mpr ⟨hk, List.nodup_singleton n, ?_⟩
        intro a ha hb
        rw [List.mem_singleton] at hb
        exact hmem (hb ▸ ha)
      · simp only [List.map_append, List.map_cons, List.map_nil]
        rw [List.append_assoc]
        simpa using hdup

/-- C1: for a well-typed `mount_dirs` array (string `name` and `source`
in every record), two records sharing a `name` make `parse_mount_points`
fail with `ConflictingMounts` (never a silent overwrite), and distinct
names make it succeed with every mount stored and retrievable by its
name with its normalized source path. -/
theorem C1_mount_names_unique (c : Config) (source : Table) (dirs : List Value)
    (hget : tableGet source CONFIG_MOUNT_DIRS = some (.array dirs))
    (hwt : ∀ d ∈ dirs, wellTypedMountDir d)
    (hinit : c.vfs.mount_points = []) :
    (¬ (dirs.map mountNameOf).Nodup →
      c.parse_mount_points source = .error .ConflictingMounts) ∧
    ((dirs.map mountNameOf).Nodup →
      ∃ c2, c.parse_mount_points source = .ok c2 ∧
        c2.vfs.mount_points =
          dirs.map (fun d => (mountNameOf d, clean_path_string (mountSourceOf d))) ∧
        ∀ d ∈ dirs, mountLookup c2.vfs.mount_points (mountNameOf d) =
          some (clean_path_string (mountSourceOf d))) := by
  constructor
  · intro hdup
    simp only [Config.parse_mount_points, hget]
    apply parseMountDirsList_conflict dirs c hwt
    · rw [hinit]; simp
    · rw [hinit]; simpa using hdup
  · intro hnd
    have hnd2 : (c.vfs.mount_points.map Prod.fst ++ dirs.map mountNameOf).Nodup := by
      rw [hinit]; simpa using hnd
    have hok := parseMountDirsList_ok dirs c hwt hnd2
    refine ⟨_, by simp only [Config.parse_mount_points, hget]; exact hok, ?_, ?_⟩
    · simp [hinit]
    · intro d hd
      have hkeys : ((dirs.map
          (fun d => (mountNameOf d, clean_path_string (mountSourceOf d)))).map
            Prod.fst).Nodup := by
        rw [List.map_map]
        simpa [Function.comp] using hnd
      have hm : (mountNameOf d, clean_path_string (mountSourceOf d)) ∈
          dirs.map (fun d => (mountNameOf d, clean_path_string (mountSourceOf d))) :=
        List.mem_map.mpr ⟨d, hd, rfl⟩
      simp only [hinit, List.nil_append]
      exact mountLookup_mem_of_nodup _ hkeys _ _ hm

theorem C1_mount_names_unique_witness :
    (Config.init sampleIndexConfig).parse_mount_points docMountsDup =
      .error .ConflictingMounts ∧
    ((Config.init sampleIndexConfig).parse_mount_points docMountsOk).toOption.map
      (fun c2 => mountLookup c2.vfs.mount_points "music") =
        some (some ["C:", "some", "path"]) := by
  constructor
  · exact (C1_mount_names_unique (Config.init sampleIndexConfig) docMountsDup
      [mountMusic, mountMusic] rfl
      (by intro d hd
          simp only [List.mem_cons, List.not_mem_nil, or_false] at hd
          rcases hd with h | h
          · exact h ▸ ⟨⟨"music", rfl⟩, ⟨"C:/some/path", rfl⟩⟩
          · exact h ▸ ⟨⟨"music", rfl⟩, ⟨"C:/some/path", rfl⟩⟩)
      rfl).1 (by decide)
  · obtain ⟨c2, hok, _, hlook⟩ := (C1_mount_names_unique (Config.init sampleIndexConfig)
      docMountsOk [mountMusic, mountVideo] rfl
      (by intro d hd
          simp only [List.mem_cons, List.not_mem_nil, or_false] at hd
          rcases hd with h | h
          · exact h ▸ ⟨⟨"music", rfl⟩, ⟨"C:/some/path", rfl⟩⟩
          · exact h ▸ ⟨⟨"video", rfl⟩, ⟨"D:/videos", rfl⟩⟩)
      rfl).2 (by decide)
    rw [hok]
    have h2 : mountLookup c2.vfs.mount_points "music" =
        some (clean_path_string "C:/some/path") :=
      hlook mountMusic (List.mem_cons_self _ _)
    rw [show clean_path_string "C:/some/path" = ["C:", "some", "path"] from by decide] at h2
    simp [Except.toOption, h2]

theorem parseUsersList_ok (l : List Value) :
    ∀ c : Config, (∀ u ∈ l, wellTypedUserRecord u) →
    parseUsersList c l =
      .ok { c with users :=
        c.users ++ l.map (fun u => User.new (userNameOf u) (userPasswordOf u)) } := by
  induction l with
  | nil =>
    intro c _
    simp [parseUsersList]
  | cons u rest ih =>
    intro c hwt
    obtain ⟨⟨n, hn⟩, ⟨p, hp⟩⟩ := hwt u (List.mem_cons_self u rest)
    have hnm : userNameOf u = n := by simp [userNameOf, hn]
    have hpm : userPasswordOf u = p := by simp [userPasswordOf, hp]
    simp only [parseUsersList, hn, hp, Value.as_str]
    rw [ih _ (fun x hx => hwt x (List.mem_cons_of_mem u hx))]
    simp [hnm, hpm, List.append_assoc]

theorem parseUsersList_err (l : List Value) :
    ∀ c : Config, (∃ u ∈ l, ¬ wellTypedUserRecord u) →
    parseUsersList c l = .error .UsersParseError := by
  induction l with
  | nil =>
    intro c hbad
    simp at hbad
  | cons u rest ih =>
    intro c hbad
    cases hn : u.lookup CONFIG_USER_NAME with
    | none => simp [parseUsersList, hn]
    | some nv =>
      cases hns : nv.as_str with
      | none => simp [parseUsersList, hn, hns]
      | some n =>
        cases hp : u.lookup CONFIG_USER_PASSWORD with
        | none => simp [parseUsersList, hn, hns, hp]
        | some pv =>
          cases hps : pv.as_str with
          | none => simp [parseUsersList, hn, hns, hp, hps]
          | some p =>
            have hwthead : wellTypedUserRecord u := by
              refine ⟨⟨n, ?_⟩, ⟨p, ?_⟩⟩
              · cases nv <;> simp_all [Value.as_str]
              · cases pv <;> simp_all [Value.as_str]
            rcases hbad with ⟨w, hw, hnot⟩
            rcases List.mem_cons.mp hw with rfl | hw2
            · exact absurd hwthead hnot
            · simp only [parseUsersList, hn, hns, hp, hps]
              exact ih _ ⟨w, hw2, hnot⟩

theorem parse_error_of_secret {indexInit : IndexConfig} {regexOk : String → Bool}
    {tbl : Table} {cacheRoot : Option RPath} {e : ConfigError}
    (h1 : (Config.init indexInit).parse_secret tbl = .error e) :
    Config.parse indexInit regexOk (some tbl) cacheRoot = .error e := by
  simp [Config.parse, h1]

theorem parse_error_of_sleep {indexInit : IndexConfig} {regexOk : String → Bool}
    {tbl : Table} {cacheRoot : Option RPath} {c1 : Config} {e : ConfigError}
    (h1 : (Config.init indexInit).parse_secret tbl = .ok c1)
    (h2 : c1.parse_index_sleep_duration tbl = .error e) :
    Config.parse indexInit regexOk (some tbl) cacheRoot = .error e := by
  simp [Config.parse, h1, h2]

theorem parse_error_of_mounts {indexInit : IndexConfig} {regexOk : String → Bool}
    {tbl : Table} {cacheRoot : Option RPath} {c1 c2 : Config} {e : ConfigError}
    (h1 : (Config.init indexInit).parse_secret tbl = .ok c1)
    (h2 : c1.parse_index_sleep_duration tbl = .ok c2)
    (h3 : c2.parse_mount_points tbl = .error e) :
    Config.parse indexInit regexOk (some tbl) cacheRoot = .error e := by
  simp [Config.parse, h1, h2, h3]

theorem parse_error_of_users {indexInit : IndexConfig} {regexOk : String → Bool}
    {tbl : Table} {cacheRoot : Option RPath} {c1 c2 c3 : Config} {e : ConfigError}
    (h1 : (Config.init indexInit).parse_secret tbl = .ok c1)
    (h2 : c1.parse_index_sleep_duration tbl = .ok c2)
    (h3 : c2.parse_mount_points tbl = .ok c3)
    (h4 : c3.parse_users tbl = .error e) :
    Config.parse indexInit regexOk (some tbl) cacheRoot = .error e := by
  simp [Config.parse, h1, h2, h3, h4]

theorem parse_error_of_album_art {indexInit : IndexConfig} {regexOk : String → Bool}
    {tbl : Table} {cacheRoot : Option RPath} {c1 c2 c3 c4 : Config} {e : ConfigError}
    (h1 : (Config.init indexInit).parse_secret tbl = .ok c1)
    (h2 : c1.parse_index_sleep_duration tbl = .ok c2)
    (h3 : c2.parse_mount_points tbl = .ok c3)
    (h4 : c3.parse_users tbl = .ok c4)
    (h5 : c4.parse_album_art_pattern regexOk tbl = .error e) :
    Config.parse indexInit regexOk (some tbl) cacheRoot = .error e := by
  simp [Config.parse, h1, h2, h3, h4, h5]

theorem parse_error_of_ddns {indexInit : IndexConfig} {regexOk : String → Bool}
    {tbl : Table} {cacheRoot : Option RPath} {c1 c2 c3 c4 c5 : Config} {e : ConfigError}
    (h1 : (Config.init indexInit).parse_secret tbl = .ok c1)
    (h2 : c1.parse_index_sleep_duration tbl = .ok c2)
    (h3 : c2.parse_mount_points tbl = .ok c3)
    (h4 : c3.parse_users tbl = .ok c4)
    (h5 : c4.parse_album_art_pattern regexOk tbl = .ok c5)
    (h6 : c5.parse_ddns tbl = .error e) :
    Config.parse indexInit regexOk (some tbl) cacheRoot = .error e := by
  simp [Config.parse, h1, h2, h3, h4, h5, h6]

theorem parse_ok_of_all {indexInit : IndexConfig} {regexOk : String → Bool}
    {tbl : Table} {c1 c2 c3 c4 c5 c6 : Config} {p : RPath}
    (h1 : (Config.init indexInit).parse_secret tbl = .ok c1)
    (h2 : c1.parse_index_sleep_duration tbl = .ok c2)
    (h3 : c2.parse_mount_points tbl = .ok c3)
    (h4 : c3.parse_users tbl = .ok c4)
    (h5 : c4.parse_album_art_pattern regexOk tbl = .ok c5)
    (h6 : c5.parse_ddns tbl = .ok c6) :
    Config.parse indexInit regexOk (some tbl) (some p) =
      .ok { c6 with index := { c6.index with path := p ++ [INDEX_FILE_NAME] } } := by
  simp [Config.parse, h1, h2, h3, h4, h5, h6]

theorem parse_cache_error_of_all {indexInit : IndexConfig} {regexOk : String → Bool}
    {tbl : Table} {c1 c2 c3 c4 c5 c6 : Config}
    (h1 : (Config.init indexInit).parse_secret tbl = .ok c1)
    (h2 : c1.parse_index_sleep_duration tbl = .ok c2)
    (h3 : c2.parse_mount_points tbl = .ok c3)
    (h4 : c3.parse_users tbl = .ok c4)
    (h5 : c4.parse_album_art_pattern regexOk tbl = .ok c5)
    (h6 : c5.parse_ddns tbl = .ok c6) :
    Config.parse indexInit regexOk (some tbl) none = .error .CacheDirectoryError := by
  simp [Config.parse, h1, h2, h3, h4, h5, h6]

/-- C2: when the `users` section is an array containing a record that
misses `name` or `password` or types either as a non-string,
`parse_users` returns `UsersParseError`; consequently the whole parse
never returns a `Config`, so no partial user list is ever observable
(the mutable config of the source is dropped by `try!`). -/
theorem C2_users_error_no_partial_list (c : Config) (source : Table)
    (recs : List Value)
    (hget : tableGet source CONFIG_USERS = some (.array recs))
    (hbad : ∃ u ∈ recs, ¬ wellTypedUserRecord u) :
    c.parse_users source = .error .UsersParseError ∧
    ∀ (indexInit : IndexConfig) (regexOk : String → Bool) (cacheRoot : Option RPath)
      (c2 : Config), Config.parse indexInit regexOk (some source) cacheRoot ≠ .ok c2 := by
  have husers : ∀ c' : Config, c'.parse_users source = .error .UsersParseError := by
    intro c'
    simp only [Config.parse_users, hget]
    exact parseUsersList_err recs c' hbad
  refine ⟨husers c, ?_⟩
  intro indexInit regexOk cacheRoot c2 hcontra
  cases h1 : (Config.init indexInit).parse_secret source with
  | error e =>
    rw [parse_error_of_secret h1] at hcontra
    exact Except.noConfusion hcontra
  | ok d1 =>
    cases h2 : d1.parse_index_sleep_duration source with
    | error e =>
      rw [parse_error_of_sleep h1 h2] at hcontra
      exact Except.noConfusion hcontra
    | ok d2 =>
      cases h3 : d2.parse_mount_points source with
      | error e =>
        rw [parse_error_of_mounts h1 h2 h3] at hcontra
        exact Except.noConfusion hcontra
      | ok d3 =>
        rw [parse_error_of_users h1 h2 h3 (husers d3)] at hcontra
        exact Except.noConfusion hcontra

theorem C2_users_error_no_partial_list_witness :
    (Config.init sampleIndexConfig).parse_users docUsersBad =
      .error .UsersParseError ∧
    Config.parse sampleIndexConfig (fun _ => true) (some docUsersBad) (some ["cache"]) ≠
      .ok (Config.init sampleIndexConfig) := by
  have hbad : ¬ wellTypedUserRecord userNoPassword := by
    rintro ⟨-, ⟨s, hs⟩⟩
    simp [userNoPassword, Value.lookup, tableGet, CONFIG_USER_PASSWORD] at hs
  obtain ⟨h1, h2⟩ := C2_users_error_no_partial_list (Config.init sampleIndexConfig)
    docUsersBad [userNoPassword] rfl ⟨userNoPassword, List.mem_cons_self _ _, hbad⟩
  exact ⟨h1, h2 sampleIndexConfig (fun _ => true) (some ["cache"]) _⟩

/-- C3 counterexample: a successful parse can contain a user whose name
and password are both empty, so "every User has a non-empty name and a
non-empty password" is false of the code: `parse_users` performs no
emptiness check. -/
theorem C3_counterexample_empty_user_accepted :
    Config.parse sampleIndexConfig (fun _ => true) (some docEmptyUser) (some ["cache"]) =
      .ok { secret := "x", vfs := { mount_points := [] },
            users := [{ name := "", password := "" }],
            index := { path := ["cache", "index.sqlite"], sleep_duration := 1800,
                       album_art_pattern := none },
            ddns := none } ∧
    ({ name := "", password := "" } : User).name = "" :=
  ⟨rfl, rfl⟩

/-- C3 amended: for every `Config` returned by a successful parse, each
`User` in the users sequence carries exactly the `name` and `password`
strings of the corresponding document record, in document order; the
strings may be empty, since no non-emptiness check is performed. -/
theorem C3_amended_users_are_document_strings (c : Config) (source : Table)
    (recs : List Value)
    (hget : tableGet source CONFIG_USERS = some (.array recs))
    (hwt : ∀ u ∈ recs, wellTypedUserRecord u)
    (hinit : c.users = []) :
    c.parse_users source =
      .ok { c with
        users := recs.map (fun u => User.new (userNameOf u) (userPasswordOf u)) } := by
  simp only [Config.parse_users, hget]
  rw [parseUsersList_ok recs c hwt]
  simp [hinit]

theorem C3_amended_users_are_document_strings_witness :
    (Config.init sampleIndexConfig).parse_users docEmptyUser =
      .ok { Config.init sampleIndexConfig with users := [User.new "" ""] } := by
  have h := C3_amended_users_are_document_strings (Config.init sampleIndexConfig)
    docEmptyUser [userEmpty] rfl
    (by intro u hu
        simp only [List.mem_cons, List.not_mem_nil, or_false] at hu
        exact hu ▸ ⟨⟨"", rfl⟩, ⟨"", rfl⟩⟩)
    rfl
  exact h

/-- C5: a present `ydns` section that is not a table, or whose `host`,
`username` or `password` is absent or not a string, makes `parse_ddns`
fail with `DDNSParseError` — and since the result is an error, no
config with a partially populated `ddns` ever escapes; when all three
sub-fields are present strings, `ddns` is `Some` of exactly those three
values. -/
theorem C5_ddns_all_or_nothing (c : Config) (source : Table) :
    (∀ v, tableGet source CONFIG_DDNS = some v → (∀ t, v ≠ .table t) →
      c.parse_ddns source = .error .DDNSParseError) ∧
    (∀ t, tableGet source CONFIG_DDNS = some (.table t) → ¬ ddnsWellTyped t →
      c.parse_ddns source = .error .DDNSParseError) ∧
    (∀ t h u p, tableGet source CONFIG_DDNS = some (.table t) →
      tableGet t CONFIG_DDNS_HOST = some (.str h) →
      tableGet t CONFIG_DDNS_USERNAME = some (.str u) →
      tableGet t CONFIG_DDNS_PASSWORD = some (.str p) →
      c.parse_ddns source =
        .ok { c with ddns := some { host := h, username := u, password := p } }) := by
  refine ⟨?_, ?_, ?_⟩
  · intro v hv hnt
    cases v with
    | table t => exact absurd rfl (hnt t)
    | str s => simp [Config.parse_ddns, hv]
    | int n => simp [Config.parse_ddns, hv]
    | float => simp [Config.parse_ddns, hv]
    | boolean b => simp [Config.parse_ddns, hv]
    | datetime s => simp [Config.parse_ddns, hv]
    | array a => simp [Config.parse_ddns, hv]
  · intro t ht hnwt
    simp only [Config.parse_ddns, ht]
    cases hh : tableGet t CONFIG_DDNS_HOST with
    | none => rfl
    | some hv =>
      cases hu : tableGet t CONFIG_DDNS_USERNAME with
      | none => rfl
      | some uv =>
        cases hpw : tableGet t CONFIG_DDNS_PASSWORD with
        | none => rfl
        | some pv =>
          cases hhs : hv.as_str with
          | none => simp [hhs]
          | some hstr =>
            cases hus : uv.as_str with
            | none => simp [hhs, hus]
            | some ustr =>
              cases hps : pv.as_str with
              | none => simp [hhs, hus, hps]
              | some pstr =>
                exfalso
                apply hnwt
                refine ⟨⟨hstr, ?_⟩, ⟨ustr, ?_⟩, ⟨pstr, ?_⟩⟩
                · cases hv <;> simp_all [Value.as_str]
                · cases uv <;> simp_all [Value.as_str]
                · cases pv <;> simp_all [Value.as_str]
  · intro t h u p ht hh hu hp
    simp [Config.parse_ddns, ht, hh, hu, hp, Value.as_str]

theorem C5_ddns_all_or_nothing_witness :
    (Config.init sampleIndexConfig).parse_ddns docDdnsNoPassword =
      .error .DDNSParseError := by
  refine (C5_ddns_all_or_nothing (Config.init sampleIndexConfig)
    docDdnsNoPassword).2.1 [("host", .str "h"), ("username", .str "u")] rfl ?_
  rintro ⟨-, -, ⟨s, hs⟩⟩
  simp [tableGet, CONFIG_DDNS_PASSWORD] at hs

/-- C6: an absent or non-string `auth_secret` makes `parse_secret` fail
with `SecretParseError`, and the whole `Config::parse` then reports
`SecretParseError` whatever the rest of the document contains (the
secret parser runs first); a string-valued `auth_secret` is copied into
the config's `secret` field verbatim. -/
theorem C6_secret_required (c : Config) (source : Table) :
    (tableGet source CONFIG_SECRET = none →
      c.parse_secret source = .error .SecretParseError) ∧
    (∀ v, tableGet source CONFIG_SECRET = some v → v.as_str = none →
      c.parse_secret source = .error .SecretParseError) ∧
    (∀ s, tableGet source CONFIG_SECRET = some (.str s) →
      c.parse_secret source = .ok { c with secret := s }) ∧
    (∀ (indexInit : IndexConfig) (regexOk : String → Bool) (cacheRoot : Option RPath),
      (tableGet source CONFIG_SECRET = none ∨
        ∃ v, tableGet source CONFIG_SECRET = some v ∧ v.as_str = none) →
      Config.parse indexInit regexOk (some source) cacheRoot =
        .error .SecretParseError) := by
  have herr : ∀ c' : Config,
      (tableGet source CONFIG_SECRET = none ∨
        ∃ v, tableGet source CONFIG_SECRET = some v ∧ v.as_str = none) →
      c'.parse_secret source = .error .SecretParseError := by
    intro c' hbad
    rcases hbad with hnone | ⟨v, hv, hvs⟩
    · simp [Config.parse_secret, hnone]
    · simp [Config.parse_secret, hv, hvs]
  refine ⟨fun h => herr c (Or.inl h),
    fun v hv hvs => herr c (Or.inr ⟨v, hv, hvs⟩), ?_, ?_⟩
  · intro s hs
    simp [Config.parse_secret, hs, Value.as_str]
  · intro indexInit regexOk cacheRoot hbad
    exact parse_error_of_secret (herr (Config.init indexInit) hbad)

theorem C6_secret_required_witness :
    (Config.init sampleIndexConfig).parse_secret [] = .error .SecretParseError ∧
    Config.parse sampleIndexConfig (fun _ => true) (some []) (some ["cache"]) =
      .error .SecretParseError := by
  obtain ⟨h1, -, -, h4⟩ := C6_secret_required (Config.init sampleIndexConfig) []
  exact ⟨h1 rfl, h4 sampleIndexConfig (fun _ => true) (some ["cache"]) (Or.inl rfl)⟩

theorem parse_secret_index_eq {c c' : Config} {tbl : Table}
    (h : c.parse_secret tbl = .ok c') : c'.index = c.index := by
  simp only [Config.parse_secret] at h
  cases hg : tableGet tbl CONFIG_SECRET with
  | none =>
    simp only [hg] at h
    exact Except.noConfusion h
  | some v =>
    cases hs : v.as_str with
    | none =>
      simp only [hg, hs] at h
      exact Except.noConfusion h
    | some s =>
      simp only [hg, hs] at h
      injection h with h2
      subst h2
      rfl

theorem parseMountDirsList_index_eq (l : List Value) :
    ∀ {c c' : Config}, parseMountDirsList c l = .ok c' → c'.index = c.index := by
  induction l with
  | nil =>
    intro c c' h
    simp only [parseMountDirsList] at h
    injection h with h2
    subst h2
    rfl
  | cons d rest ih =>
    intro c c' h
    simp only [parseMountDirsList] at h
    cases hn : d.lookup CONFIG_MOUNT_DIR_NAME with
    | none =>
      simp only [hn] at h
      exact Except.noConfusion h
    | some nv =>
      cases hns : nv.as_str with
      | none =>
        simp only [hn, hns] at h
        exact Except.noConfusion h
      | some n =>
        cases hs : d.lookup CONFIG_MOUNT_DIR_SOURCE with
        | none =>
          simp only [hn, hns, hs] at h
          exact Except.noConfusion h
        | some sv =>
          cases hss : sv.as_str with
          | none =>
            simp only [hn, hns, hs, hss] at h
            exact Except.noConfusion h
          | some s =>
            simp only [hn, hns, hs, hss] at h
            cases hck : containsKey c.vfs.mount_points n with
            | true =>
              simp only [hck, if_true] at h
              exact Except.noConfusion h
            | false =>
              simp only [hck, Bool.false_eq_true, if_false] at h
              exact (ih h).trans rfl


theorem parse_mount_points_index_eq {c c' : Config} {tbl : Table}
    (h : c.parse_mount_points tbl = .ok c') : c'.index = c.index := by
  simp only [Config.parse_mount_points] at h
  cases hg : tableGet tbl CONFIG_MOUNT_DIRS with
  | none =>
    simp only [hg] at h
    injection h with h2
    subst h2
    rfl
  | some v =>
    simp only [hg] at h
    cases v with
    | array a => exact parseMountDirsList_index_eq a h
    | str s => exact Except.noConfusion h
    | int n => exact Except.noConfusion h
    | float => exact Except.noConfusion h
    | boolean b => exact Except.noConfusion h
    | datetime s => exact Except.noConfusion h
    | table t => exact Except.noConfusion h

theorem parseUsersList_index_eq (l : List Value) :
    ∀ {c c' : Config}, parseUsersList c l = .ok c' → c'.index = c.index := by
  induction l with
  | nil =>
    intro c c' h
    simp only [parseUsersList] at h
    injection h with h2
    subst h2
    rfl
  | cons u rest ih =>
    intro c c' h
    simp only [parseUsersList] at h
    cases hn : u.lookup CONFIG_USER_NAME with
    | none =>
      simp only [hn] at h
      exact Except.noConfusion h
    | some nv =>
      cases hns : nv.as_str with
      | none =>
        simp only [hn, hns] at h
        exact Except.noConfusion h
      | some n =>
        cases hp : u.lookup CONFIG_USER_PASSWORD with
        | none =>
          simp only [hn, hns, hp] at h
          exact Except.noConfusion h
        | some pv =>
          cases hps : pv.as_str with
          | none =>
            simp only [hn, hns, hp, hps] at h
            exact Except.noConfusion h
          | some p =>
            simp only [hn, hns, hp, hps] at h
            exact (ih h).trans rfl

theorem parse_users_index_eq {c c' : Config} {tbl : Table}
    (h : c.parse_users tbl = .ok c') : c'.index = c.index := by
  simp only [Config.parse_users] at h
  cases hg : tableGet tbl CONFIG_USERS with
  | none =>
    simp only [hg] at h
    injection h with h2
    subst h2
    rfl
  | some v =>
    simp only [hg] at h
    cases v with
    | array a => exact parseUsersList_index_eq a h
    | str s => exact Except.noConfusion h
    | int n => exact Except.noConfusion h
    | float => exact Except.noConfusion h
    | boolean b => exact Except.noConfusion h
    | datetime s => exact Except.noConfusion h
    | table t => exact Except.noConfusion h

theorem parse_album_art_sleep_eq {c c' : Config} {regexOk : String → Bool} {tbl : Table}
    (h : c.parse_album_art_pattern regexOk tbl = .ok c') :
    c'.index.sleep_duration = c.index.sleep_duration := by
  simp only [Config.parse_album_art_pattern] at h
  cases hg : tableGet tbl CONFIG_ALBUM_ART_PATTERN with
  | none =>
    simp only [hg] at h
    injection h with h2
    subst h2
    rfl
  | some v =>
    simp only [hg] at h
    cases v with
    | str s =>
      cases hr : regexOk s with
      | true =>
        simp only [hr, if_true] at h
        injection h with h2
        subst h2
        rfl
      | false =>
        simp only [hr, Bool.false_eq_true, if_false] at h
        exact Except.noConfusion h
    | int n => exact Except.noConfusion h
    | float => exact Except.noConfusion h
    | boolean b => exact Except.noConfusion h
    | datetime s => exact Except.noConfusion h
    | array a => exact Except.noConfusion h
    | table t => exact Except.noConfusion h

theorem parse_ddns_index_eq {c c' : Config} {tbl : Table}
    (h : c.parse_ddns tbl = .ok c') : c'.index = c.index := by
  simp only [Config.parse_ddns] at h
  cases hg : tableGet tbl CONFIG_DDNS with
  | none =>
    simp only [hg] at h
    injection h with h2
    subst h2
    rfl
  | some v =>
    simp only [hg] at h
    cases v with
    | table t =>
      cases hh : tableGet t CONFIG_DDNS_HOST with
      | none =>
        simp only [hh] at h
        exact Except.noConfusion h
      | some hv =>
        cases hu : tableGet t CONFIG_DDNS_USERNAME with
        | none =>
          simp only [hh, hu] at h
          exact Except.noConfusion h
        | some uv =>
          cases hpw : tableGet t CONFIG_DDNS_PASSWORD with
          | none =>
            simp only [hh, hu, hpw] at h
            exact Except.noConfusion h
          | some pv =>
            cases hhs : hv.as_str with
            | none =>
              simp only [hh, hu, hpw, hhs] at h
              exact Except.noConfusion h
            | some hstr =>
              cases hus : uv.as_str with
              | none =>
                simp only [hh, hu, hpw, hhs, hus] at h
                exact Except.noConfusion h
              | some ustr =>
                cases hps : pv.as_str with
                | none =>
                  simp only [hh, hu, hpw, hhs, hus, hps] at h
                  exact Except.noConfusion h
                | some pstr =>
                  simp only [hh, hu, hpw, hhs, hus, hps] at h
                  injection h with h2
                  subst h2
                  rfl
    | str s => exact Except.noConfusion h
    | int n => exact Except.noConfusion h
    | float => exact Except.noConfusion h
    | boolean b => exact Except.noConfusion h
    | datetime s => exact Except.noConfusion h
    | array a => exact Except.noConfusion h

/-- C7: the field parsers run in the fixed order secret → reindex
interval → mount points → users → album-art pattern → dynamic-DNS,
short-circuiting: the reported error is that of the earliest parser in
this order that fails (each later parser's error is only reported when
every earlier parser succeeded); and a document that fails syntactic
parsing yields `TOMLParseError` before any field parser runs. -/
theorem C7_fixed_order_short_circuit (indexInit : IndexConfig)
    (regexOk : String → Bool) (cacheRoot : Option RPath) :
    Config.parse indexInit regexOk none cacheRoot = .error .TOMLParseError ∧
    ∀ (tbl : Table) (e : ConfigError),
      ((Config.init indexInit).parse_secret tbl = .error e →
        Config.parse indexInit regexOk (some tbl) cacheRoot = .error e) ∧
      (∀ c1, (Config.init indexInit).parse_secret tbl = .ok c1 →
        c1.parse_index_sleep_duration tbl = .error e →
        Config.parse indexInit regexOk (some tbl) cacheRoot = .error e) ∧
      (∀ c1 c2, (Config.init indexInit).parse_secret tbl = .ok c1 →
        c1.parse_index_sleep_duration tbl = .ok c2 →
        c2.parse_mount_points tbl = .error e →
        Config.parse indexInit regexOk (some tbl) cacheRoot = .error e) ∧
      (∀ c1 c2 c3, (Config.init indexInit).parse_secret tbl = .ok c1 →
        c1.parse_index_sleep_duration tbl = .ok c2 →
        c2.parse_mount_points tbl = .ok c3 →
        c3.parse_users tbl = .error e →
        Config.parse indexInit regexOk (some tbl) cacheRoot = .error e) ∧
      (∀ c1 c2 c3 c4, (Config.init indexInit).parse_secret tbl = .ok c1 →
        c1.parse_index_sleep_duration tbl = .ok c2 →
        c2.parse_mount_points tbl = .ok c3 →
        c3.parse_users tbl = .ok c4 →
        c4.parse_album_art_pattern regexOk tbl = .error e →
        Config.parse indexInit regexOk (some tbl) cacheRoot = .error e) ∧
      (∀ c1 c2 c3 c4 c5, (Config.init indexInit).parse_secret tbl = .ok c1 →
        c1.parse_index_sleep_duration tbl = .ok c2 →
        c2.parse_mount_points tbl = .ok c3 →
        c3.parse_users tbl = .ok c4 →
        c4.parse_album_art_pattern regexOk tbl = .ok c5 →
        c5.parse_ddns tbl = .error e →
        Config.parse indexInit regexOk (some tbl) cacheRoot = .error e) := by
  refine ⟨rfl, fun tbl e => ⟨?_, ?_, ?_, ?_, ?_, ?_⟩⟩
  · intro h1
    exact parse_error_of_secret h1
  · intro c1 h1 h2
    exact parse_error_of_sleep h1 h2
  · intro c1 c2 h1 h2 h3
    exact parse_error_of_mounts h1 h2 h3
  · intro c1 c2 c3 h1 h2 h3 h4
    exact parse_error_of_users h1 h2 h3 h4
  · intro c1 c2 c3 c4 h1 h2 h3 h4 h5
    exact parse_error_of_album_art h1 h2 h3 h4 h5
  · intro c1 c2 c3 c4 c5 h1 h2 h3 h4 h5 h6
    exact parse_error_of_ddns h1 h2 h3 h4 h5 h6

theorem C7_fixed_order_short_circuit_witness :
    Config.parse sampleIndexConfig (fun _ => true) none (some ["cache"]) =
      .error .TOMLParseError ∧
    Config.parse sampleIndexConfig (fun _ => true) (some docMultiBad) (some ["cache"]) =
      .error .SleepDurationParseError := by
  obtain ⟨htoml, hrest⟩ :=
    C7_fixed_order_short_circuit sampleIndexConfig (fun _ => true) (some ["cache"])
  exact ⟨htoml,
    (hrest docMultiBad .SleepDurationParseError).2.1
      { Config.init sampleIndexConfig with secret := "x" } rfl rfl⟩

/-- C8: every successfully parsed `Config` has its index storage path
equal to the runtime cache directory joined with `index.sqlite`,
regardless of document content (the path is set once, after all field
parsers succeeded); and when the cache directory cannot be resolved the
parse fails with `CacheDirectoryError` even though every document field
was valid (all six field parsers succeeded). -/
theorem C8_index_path_runtime_derived (indexInit : IndexConfig)
    (regexOk : String → Bool) :
    (∀ (parsed : Option Table) (cache : RPath) (c : Config),
      Config.parse indexInit regexOk parsed (some cache) = .ok c →
      c.index.path = cache ++ [INDEX_FILE_NAME]) ∧
    (∀ (tbl : Table) (c1 c2 c3 c4 c5 c6 : Config),
      (Config.init indexInit).parse_secret tbl = .ok c1 →
      c1.parse_index_sleep_duration tbl = .ok c2 →
      c2.parse_mount_points tbl = .ok c3 →
      c3.parse_users tbl = .ok c4 →
      c4.parse_album_art_pattern regexOk tbl = .ok c5 →
      c5.parse_ddns tbl = .ok c6 →
      Config.parse indexInit regexOk (some tbl) none = .error .CacheDirectoryError) := by
  constructor
  · intro parsed cache c h
    cases parsed with
    | none => exact Except.noConfusion h
    | some tbl =>
      cases h1 : (Config.init indexInit).parse_secret tbl with
      | error e =>
        rw [parse_error_of_secret h1] at h
        exact Except.noConfusion h
      | ok d1 =>
        cases h2 : d1.parse_index_sleep_duration tbl with
        | error e =>
          rw [parse_error_of_sleep h1 h2] at h
          exact Except.noConfusion h
        | ok d2 =>
          cases h3 : d2.parse_mount_points tbl with
          | error e =>
            rw [parse_error_of_mounts h1 h2 h3] at h
            exact Except.noConfusion h
          | ok d3 =>
            cases h4 : d3.parse_users tbl with
            | error e =>
              rw [parse_error_of_users h1 h2 h3 h4] at h
              exact Except.noConfusion h
            | ok d4 =>
              cases h5 : d4.parse_album_art_pattern regexOk tbl with
              | error e =>
                rw [parse_error_of_album_art h1 h2 h3 h4 h5] at h
                exact Except.noConfusion h
              | ok d5 =>
                cases h6 : d5.parse_ddns tbl with
                | error e =>
                  rw [parse_error_of_ddns h1 h2 h3 h4 h5 h6] at h
                  exact Except.noConfusion h
                | ok d6 =>
                  rw [parse_ok_of_all h1 h2 h3 h4 h5 h6] at h
                  injection h with h7
                  subst h7
                  rfl
  · intro tbl c1 c2 c3 c4 c5 c6 h1 h2 h3 h4 h5 h6
    exact parse_cache_error_of_all h1 h2 h3 h4 h5 h6

theorem C8_index_path_runtime_derived_witness :
    (["cache"] : RPath) ++ [INDEX_FILE_NAME] = ["cache", "index.sqlite"] ∧
    (Config.parse sampleIndexConfig (fun _ => true)
        (some [(CONFIG_SECRET, .str "s")]) (some ["cache"])).toOption.map
      (fun c => c.index.path) = some ["cache", "index.sqlite"] ∧
    Config.parse sampleIndexConfig (fun _ => true)
      (some [(CONFIG_SECRET, .str "s")]) none = .error .CacheDirectoryError := by
  obtain ⟨hok, hcache⟩ :=
    C8_index_path_runtime_derived sampleIndexConfig (fun _ => true)
  refine ⟨rfl, ?_, ?_⟩
  · have h := hok (some [(CONFIG_SECRET, .str "s")]) ["cache"]
      { secret := "s", vfs := { mount_points := [] }, users := [],
        index := { path := ["cache", "index.sqlite"], sleep_duration := 1800,
                   album_art_pattern := none }, ddns := none } rfl
    rw [show Config.parse sampleIndexConfig (fun _ => true)
        (some [(CONFIG_SECRET, .str "s")]) (some ["cache"]) =
      .ok { secret := "s", vfs := { mount_points := [] }, users := [],
            index := { path := ["cache", "index.sqlite"], sleep_duration := 1800,
                       album_art_pattern := none }, ddns := none } from rfl]
    simp [Except.toOption, h]
  · exact hcache [(CONFIG_SECRET, .str "s")]
      { Config.init sampleIndexConfig with secret := "s" }
      { Config.init sampleIndexConfig with secret := "s" }
      { Config.init sampleIndexConfig with secret := "s" }
      { Config.init sampleIndexConfig with secret := "s" }
      { Config.init sampleIndexConfig with secret := "s" }
      { Config.init sampleIndexConfig with secret := "s" }
      rfl rfl rfl rfl rfl rfl

/-- C9: an absent `reindex_every_n_seconds` key leaves the config (and
in particular the index's sleep duration, i.e. the built-in default of
`IndexConfig::new()`) unchanged through the whole parse; a present
non-integer value fails with `SleepDurationParseError`; a present
integer `n` (negative included) sets the sleep duration to `n`
interpreted as an unsigned 64-bit value, i.e. `n mod 2^64`. -/
theorem C9_reindex_interval (c : Config) (source : Table) :
    (tableGet source CONFIG_INDEX_SLEEP_DURATION = none →
      c.parse_index_sleep_duration source = .ok c) ∧
    (∀ v, tableGet source CONFIG_INDEX_SLEEP_DURATION = some v →
      (∀ n : Int, v ≠ .int n) →
      c.parse_index_sleep_duration source = .error .SleepDurationParseError) ∧
    (∀ n : Int, tableGet source CONFIG_INDEX_SLEEP_DURATION = some (.int n) →
      c.parse_index_sleep_duration source =
        .ok { c with
          index := { c.index with sleep_duration := (n % (2 : Int) ^ 64).toNat } }) ∧
    (∀ (indexInit : IndexConfig) (regexOk : String → Bool) (cache : Option RPath)
      (c2 : Config),
      tableGet source CONFIG_INDEX_SLEEP_DURATION = none →
      Config.parse indexInit regexOk (some source) cache = .ok c2 →
      c2.index.sleep_duration = indexInit.sleep_duration) := by
  refine ⟨?_, ?_, ?_, ?_⟩
  · intro h
    simp [Config.parse_index_sleep_duration, h]
  · intro v hv hni
    cases v with
    | int n => exact absurd rfl (hni n)
    | str s => simp [Config.parse_index_sleep_duration, hv]
    | float => simp [Config.parse_index_sleep_duration, hv]
    | boolean b => simp [Config.parse_index_sleep_duration, hv]
    | datetime s => simp [Config.parse_index_sleep_duration, hv]
    | array a => simp [Config.parse_index_sleep_duration, hv]
    | table t => simp [Config.parse_index_sleep_duration, hv]
  · intro n hn
    simp [Config.parse_index_sleep_duration, hn]
  · intro indexInit regexOk cache c2 hnone hok
    cases h1 : (Config.init indexInit).parse_secret source with
    | error e =>
      rw [parse_error_of_secret h1] at hok
      exact Except.noConfusion hok
    | ok d1 =>
      have h2 : d1.parse_index_sleep_duration source = .ok d1 := by
        simp [Config.parse_index_sleep_duration, hnone]
      cases h3 : d1.parse_mount_points source with
      | error e =>
        rw [parse_error_of_mounts h1 h2 h3] at hok
        exact Except.noConfusion hok
      | ok d3 =>
        cases h4 : d3.parse_users source with
        | error e =>
          rw [parse_error_of_users h1 h2 h3 h4] at hok
          exact Except.noConfusion hok
        | ok d4 =>
          cases h5 : d4.parse_album_art_pattern regexOk source with
          | error e =>
            rw [parse_error_of_album_art h1 h2 h3 h4 h5] at hok
            exact Except.noConfusion hok
          | ok d5 =>
            cases h6 : d5.parse_ddns source with
            | error e =>
              rw [parse_error_of_ddns h1 h2 h3 h4 h5 h6] at hok
              exact Except.noConfusion hok
            | ok d6 =>
              cases cache with
              | none =>
                rw [parse_cache_error_of_all h1 h2 h3 h4 h5 h6] at hok
                exact Except.noConfusion hok
              | some p =>
                rw [parse_ok_of_all h1 h2 h3 h4 h5 h6] at hok
                injection hok with h7
                subst h7
                have e1 : d1.index = indexInit := parse_secret_index_eq h1
                have e3 : d3.index = d1.index := parse_mount_points_index_eq h3
                have e4 : d4.index = d3.index := parse_users_index_eq h4
                have e5 : d5.index.sleep_duration = d4.index.sleep_duration :=
                  parse_album_art_sleep_eq h5
                have e6 : d6.index = d5.index := parse_ddns_index_eq h6
                show d6.index.sleep_duration = indexInit.sleep_duration
                rw [e6, e5, e4, e3, e1]

theorem C9_reindex_interval_witness :
    (Config.init sampleIndexConfig).parse_index_sleep_duration [] =
      .ok (Config.init sampleIndexConfig) ∧
    (Config.init sampleIndexConfig).parse_index_sleep_duration docSleepNeg =
      .ok { Config.init sampleIndexConfig with
        index := { (Config.init sampleIndexConfig).index with
          sleep_duration := ((-1 : Int) % (2 : Int) ^ 64).toNat } } ∧
    ((-1 : Int) % (2 : Int) ^ 64).toNat = 18446744073709551615 := by
  refine ⟨(C9_reindex_interval (Config.init sampleIndexConfig) []).1 rfl,
    (C9_reindex_interval (Config.init sampleIndexConfig) docSleepNeg).2.2.1 (-1) rfl,
    by decide⟩

/-- C10: the empty string is accepted as the secret: `parse_secret`
copies a present string `auth_secret` verbatim, with no minimum length,
and the concrete document `auth_secret = ""` parses successfully into a
config whose secret is `""`. -/
theorem C10_empty_secret_accepted (c : Config) (source : Table)
    (hget : tableGet source CONFIG_SECRET = some (.str "")) :
    c.parse_secret source = .ok { c with secret := "" } ∧
    Config.parse sampleIndexConfig (fun _ => true)
        (some [(CONFIG_SECRET, .str "")]) (some ["cache"]) =
      .ok { secret := "", vfs := { mount_points := [] }, users := [],
            index := { path := ["cache", "index.sqlite"], sleep_duration := 1800,
                       album_art_pattern := none }, ddns := none } :=
  ⟨by simp [Config.parse_secret, hget, Value.as_str], rfl⟩

theorem C10_empty_secret_accepted_witness :
    (Config.init sampleIndexConfig).parse_secret [(CONFIG_SECRET, .str "")] =
      .ok { Config.init sampleIndexConfig with secret := "" } :=
  (C10_empty_secret_accepted (Config.init sampleIndexConfig)
    [(CONFIG_SECRET, .str "")] rfl).1

end Polaris
